import Mathlib

/-!
Shallow embedding of the simulation core of `src/main.rs` (the r0t0snake game):
`Direction`, `LevelBounds`, `Snake`, `Apple`, `World` and their operations.

Conventions of the embedding:
* `u32` values are modelled as `Nat`; every Rust operation that wraps in
  release mode (`overflowing_add`, `overflowing_sub`, and the unchecked
  `+`/`-` on coordinates) is written with an explicit `% 2^32`.
* `VecDeque<(u32, u32)>` is a `List (Nat × Nat)` with the front of the deque
  at the head of the list.
* Functions that can panic (`unwrap` on an empty deque, a rejection-sampling
  loop that never terminates) return `Option`, with `none` for the panic or
  divergence.
* The random number generator inside `Apple::gen_pos` is made explicit as the
  list of samples it produces; each list element stands for one `(x, y)` pair
  drawn by the two `gen_range` calls.
-/

/-- The u32 modulus. -/
def u32Mod : Nat := 2 ^ 32

/-- Direction, from `enum Direction` (main.rs lines 10-16). -/
inductive Direction : Type
  | Up
  | Right
  | Down
  | Left
deriving DecidableEq

/-- `impl From<u32> for Direction` (main.rs lines 18-28): match on `x % 4`. -/
def directionOfU32 (x : Nat) : Direction :=
  match x % 4 with
  | 0 => Direction.Up
  | 1 => Direction.Right
  | 2 => Direction.Down
  | _ => Direction.Left

/-- `impl From<Direction> for u32` (main.rs lines 30-39). -/
def u32OfDirection : Direction → Nat
  | Direction.Up => 0
  | Direction.Right => 1
  | Direction.Down => 2
  | Direction.Left => 3

/-- `Direction::cw` (main.rs lines 42-45): `x.overflowing_add(1)` then `From<u32>`. -/
def Direction.cw (d : Direction) : Direction :=
  directionOfU32 ((u32OfDirection d + 1) % u32Mod)

/-- `Direction::ccw` (main.rs lines 47-50): `x.overflowing_sub(1)` then `From<u32>`. -/
def Direction.ccw (d : Direction) : Direction :=
  directionOfU32 ((u32OfDirection d + (u32Mod - 1)) % u32Mod)

/-- `Direction::is_opposite` (main.rs lines 52-59): the wrapping difference of
the encodings, reduced mod 4 by `From<u32>`, must be `Down` (encoding 2). -/
def Direction.is_opposite (d : Direction) (direction : Direction) : Bool :=
  directionOfU32 ((u32OfDirection d + (u32Mod - u32OfDirection direction)) % u32Mod)
    == Direction.Down

/-- `struct LevelBounds` (main.rs lines 133-138). -/
structure LevelBounds : Type where
  x : Nat
  y : Nat
  width : Nat
  height : Nat
deriving DecidableEq

/-- `LevelBounds::new` (main.rs lines 141-145). -/
def LevelBounds.new (x y width height : Nat) : LevelBounds :=
  { x := x, y := y, width := width, height := height }

/-- `LevelBounds::is_inside` (main.rs lines 164-166):
`x > self.x && x < (self.x + self.width - 1) && y > self.y && y < (self.y + self.height - 1)`,
with the u32 sums and the subtraction wrapping mod `2^32`. -/
def LevelBounds.is_inside (b : LevelBounds) (x y : Nat) : Bool :=
  decide (b.x < x) && decide (x < (b.x + b.width + (u32Mod - 1)) % u32Mod) &&
  decide (b.y < y) && decide (y < (b.y + b.height + (u32Mod - 1)) % u32Mod)

/-- `struct Snake` (main.rs lines 169-177). -/
structure Snake : Type where
  body : List (Nat × Nat)
  prev_direction : Direction
  direction : Direction
  period : Nat
  tick : Nat
  score : Nat
  dead : Bool
deriving DecidableEq

/-- `enum SnakeCollision` (main.rs lines 179-183). -/
inductive SnakeCollision : Type
  | Head
  | Tail
deriving DecidableEq

/-- `Snake::new` (main.rs lines 186-216). -/
def Snake.new : Snake :=
  { body := [(10, 3), (9, 3), (8, 3), (7, 3), (6, 3), (5, 3), (4, 3), (3, 3)]
    prev_direction := Direction.Right
    direction := Direction.Right
    period := 24
    tick := 0
    score := 0
    dead := false }

/-- `Snake::is_collision` (main.rs lines 218-231).  The loop checks the
element at index 0 against `Head` first (its `Tail` test at index 0 is
unreachable, since the `Head` branch already returned), and every later
element against `Tail`; the first match wins. -/
def Snake.is_collision (s : Snake) (x y : Nat) : Option SnakeCollision :=
  match s.body with
  | [] => none
  | p :: rest =>
    if p = (x, y) then some SnakeCollision.Head
    else if (x, y) ∈ rest then some SnakeCollision.Tail
    else none

/-- `Snake::grow` (main.rs lines 233-239): `back().unwrap()` panics on an
empty body (`none`); otherwise push `n` copies of the back element. -/
def Snake.grow (s : Snake) (n : Nat) : Option Snake :=
  match s.body.getLast? with
  | none => none
  | some back => some { s with body := s.body ++ List.replicate n back }

/-- `Snake::move_up` (main.rs lines 241-245). -/
def Snake.move_up (s : Snake) : Snake :=
  if ! s.prev_direction.is_opposite Direction.Up then
    { s with direction := Direction.Up }
  else s

/-- `Snake::move_right` (main.rs lines 247-251). -/
def Snake.move_right (s : Snake) : Snake :=
  if ! s.prev_direction.is_opposite Direction.Right then
    { s with direction := Direction.Right }
  else s

/-- `Snake::move_down` (main.rs lines 253-257). -/
def Snake.move_down (s : Snake) : Snake :=
  if ! s.prev_direction.is_opposite Direction.Down then
    { s with direction := Direction.Down }
  else s

/-- `Snake::move_left` (main.rs lines 259-263). -/
def Snake.move_left (s : Snake) : Snake :=
  if ! s.prev_direction.is_opposite Direction.Left then
    { s with direction := Direction.Left }
  else s

/-- `enum ObjectId` (main.rs lines 398-404). -/
inductive ObjectId : Type
  | SnakeHead
  | SnakeTail
  | LevelBound
  | Apple
deriving DecidableEq

/-- `struct Apple` (main.rs lines 353-355). -/
structure Apple : Type where
  pos : Option (Nat × Nat)
deriving DecidableEq

/-- `struct World` (main.rs lines 406-410). -/
structure World : Type where
  snake : Snake
  level_bounds : LevelBounds
  apple : Apple
deriving DecidableEq

/-- `World::new` (main.rs lines 413-421). -/
def World.new (snake : Snake) (level_bounds : LevelBounds) : World :=
  { snake := snake, level_bounds := level_bounds, apple := { pos := none } }

/-- `World::check_collision` (main.rs lines 423-447): the early-return chain,
with each test guarded by `id != <that object>`. -/
def World.check_collision (w : World) (id : ObjectId) (x y : Nat) : Option ObjectId :=
  if id ≠ ObjectId.LevelBound ∧ w.level_bounds.is_inside x y = false then
    some ObjectId.LevelBound
  else
    match w.snake.is_collision x y with
    | some SnakeCollision.Head =>
      if id ≠ ObjectId.SnakeHead then some ObjectId.SnakeHead
      else if id ≠ ObjectId.Apple ∧ w.apple.pos = some (x, y) then some ObjectId.Apple
      else none
    | some SnakeCollision.Tail =>
      if id ≠ ObjectId.SnakeTail then some ObjectId.SnakeTail
      else if id ≠ ObjectId.Apple ∧ w.apple.pos = some (x, y) then some ObjectId.Apple
      else none
    | none =>
      if id ≠ ObjectId.Apple ∧ w.apple.pos = some (x, y) then some ObjectId.Apple
      else none

/-- The candidate new head cell computed in `Snake::update` (main.rs lines
276-281): step one unit from `(x, y)` in `direction`, with the unchecked u32
`+ 1` and `- 1` wrapping mod `2^32` (release semantics). -/
def Snake.next_head (s : Snake) (x y : Nat) : Nat × Nat :=
  match s.direction with
  | Direction.Up => (x, (y + (u32Mod - 1)) % u32Mod)
  | Direction.Right => ((x + 1) % u32Mod, y)
  | Direction.Down => (x, (y + 1) % u32Mod)
  | Direction.Left => ((x + (u32Mod - 1)) % u32Mod, y)

/-- `Snake::update` (main.rs lines 265-302).  Early return when dead; the
tick counter is incremented by the unchecked u32 `+ 1`, which wraps mod
`2^32` (release semantics), and the timer fires when the incremented counter
exceeds `period`, resetting it to 0; `body.front().unwrap()` panics on an
empty body (`none`); the collision outcome either kills (return before the
move), grows, or neither; then push the candidate head, pop the back, and
commit the direction. -/
def Snake.update (w : World) : Option World :=
  if w.snake.dead then some w
  else if (w.snake.tick + 1) % u32Mod > w.snake.period then
    match w.snake.body with
    | [] => none
    | (x, y) :: _ =>
      let cand := Snake.next_head w.snake x y
      let object_id :=
        World.check_collision { w with snake := { w.snake with tick := 0 } }
          ObjectId.SnakeHead cand.1 cand.2
      let snakeAfter : Option Snake :=
        if object_id = some ObjectId.LevelBound then
          some { w.snake with tick := 0, dead := true }
        else if object_id = some ObjectId.SnakeTail then
          some { w.snake with tick := 0, dead := true }
        else if object_id = some ObjectId.Apple then
          Snake.grow { w.snake with tick := 0 } 1
        else some { w.snake with tick := 0 }
      match snakeAfter with
      | none => none
      | some s2 =>
        if s2.dead then some { w with snake := s2 }
        else
          some { w with snake :=
            { s2 with
              body := ((cand.1, cand.2) :: s2.body).dropLast
              prev_direction := s2.direction } }
  else some { w with snake := { w.snake with tick := (w.snake.tick + 1) % u32Mod } }

/-- `Apple::gen_pos` (main.rs lines 364-375): the rejection-sampling loop,
with the stream of random pairs drawn by the two `gen_range` calls made
explicit as `cands`; returns the first pair that does not collide with the
snake, or `none` when the (in reality unbounded) stream is exhausted. -/
def Apple.gen_pos (snake : Snake) (cands : List (Nat × Nat)) : Option (Nat × Nat) :=
  match cands with
  | [] => none
  | (x, y) :: rest =>
    if snake.is_collision x y = none then some (x, y)
    else Apple.gen_pos snake rest

/-- `Apple::update` (main.rs lines 377-389): place the apple when it has no
position yet, then re-roll when the collision check of the apple cell reports
the snake head.  `cands1` and `cands2` are the sample streams of the two
potential `gen_pos` calls. -/
def Apple.update (w : World) (cands1 cands2 : List (Nat × Nat)) : Option World :=
  let w1opt : Option World :=
    if w.apple.pos = none then
      match Apple.gen_pos w.snake cands1 with
      | none => none
      | some p => some { w with apple := { pos := some p } }
    else some w
  match w1opt with
  | none => none
  | some w1 =>
    match w1.apple.pos with
    | none => some w1
    | some (x, y) =>
      if w1.check_collision ObjectId.Apple x y = some ObjectId.SnakeHead then
        match Apple.gen_pos w1.snake cands2 with
        | none => none
        | some p => some { w1 with apple := { pos := some p } }
      else some w1

/-- A turn request for a given direction, dispatching to the four
`Snake::move_*` functions (main.rs lines 241-263). -/
def requestDir (s : Snake) (d : Direction) : Snake :=
  match d with
  | Direction.Up => s.move_up
  | Direction.Right => s.move_right
  | Direction.Down => s.move_down
  | Direction.Left => s.move_left

/-- The operations the game loop (main.rs lines 550-568) applies to the
world each logic tick: the four turn requests, `Snake::update`, and
`Apple::update` (the latter with its random samples made explicit). -/
inductive Op : Type
  | moveUp
  | moveRight
  | moveDown
  | moveLeft
  | snakeUpd
  | appleUpd (cands1 cands2 : List (Nat × Nat))

/-- Apply one game-loop operation to the world. -/
def applyOp (w : World) : Op → Option World
  | Op.moveUp => some { w with snake := w.snake.move_up }
  | Op.moveRight => some { w with snake := w.snake.move_right }
  | Op.moveDown => some { w with snake := w.snake.move_down }
  | Op.moveLeft => some { w with snake := w.snake.move_left }
  | Op.snakeUpd => Snake.update w
  | Op.appleUpd cands1 cands2 => Apple.update w cands1 cands2

/-- The initial world of `main` (main.rs lines 490-496):
`World::new(Snake::new(), LevelBounds::new(0, 0, 30, 20))`. -/
def initWorld : World :=
  World.new Snake.new (LevelBounds.new 0 0 30 20)

/-- World states reachable from the initial world by game-loop operations. -/
inductive Reachable : World → Prop
  | init : Reachable initWorld
  | step (w w' : World) (op : Op) : Reachable w → applyOp w op = some w' → Reachable w'

/-- Iterate `Snake::update` a number of times (propagating a panic). -/
def iterate_update : Nat → World → Option World
  | 0, w => some w
  | n + 1, w =>
    match Snake.update w with
    | none => none
    | some w' => iterate_update n w'

/-! ## Basic lemmas about the embedding -/

theorem u32Mod_pos : 0 < u32Mod := by norm_num [u32Mod]

/-- The wrapping u32 increment never returns its argument. -/
theorem wrap_succ_ne (x : Nat) : (x + 1) % u32Mod ≠ x := by
  have h : u32Mod = 4294967296 := by norm_num [u32Mod]
  rw [h]
  omega

/-- The wrapping u32 decrement never returns its argument. -/
theorem wrap_dec_ne (x : Nat) : (x + (u32Mod - 1)) % u32Mod ≠ x := by
  have h : u32Mod = 4294967296 := by norm_num [u32Mod]
  rw [h]
  omega

/-- For 1 ≤ x < 2^32, the wrapping u32 decrement is the plain decrement. -/
theorem wrap_dec_eq (x : Nat) (h1 : 1 ≤ x) (h2 : x < u32Mod) :
    (x + (u32Mod - 1)) % u32Mod = x - 1 := by
  have h : u32Mod = 4294967296 := by norm_num [u32Mod]
  rw [h] at h2 ⊢
  omega

/-- The candidate head cell differs from the current head cell. -/
theorem next_head_ne (s : Snake) (x y : Nat) : Snake.next_head s x y ≠ (x, y) := by
  unfold Snake.next_head
  cases s.direction <;> simp [Prod.ext_iff]
  · exact wrap_dec_ne y
  · exact wrap_succ_ne x
  · exact wrap_succ_ne y
  · exact wrap_dec_ne x

/-- `is_collision` returns `none` exactly when the cell is on no body segment. -/
theorem is_collision_eq_none_iff (s : Snake) (x y : Nat) :
    s.is_collision x y = none ↔ (x, y) ∉ s.body := by
  unfold Snake.is_collision
  cases hb : s.body with
  | nil => simp
  | cons p rest =>
    by_cases hp : p = (x, y) <;> by_cases ht : (x, y) ∈ rest <;>
      simp [hp, ht, eq_comm]

/-- An if-then-else on a negated boolean condition swaps the branches. -/
theorem if_not_swap {α : Type} (c : Bool) (a b : α) :
    (if ! c then a else b) = (if c then b else a) := by
  cases c <;> simp

/-- The four `move_*` functions, seen through `requestDir`: the request is
ignored when opposite to the committed heading, else it sets the heading. -/
theorem requestDir_eq (s : Snake) (d : Direction) :
    requestDir s d =
      if s.prev_direction.is_opposite d then s else { s with direction := d } := by
  cases d <;>
    simp only [requestDir, Snake.move_up, Snake.move_right, Snake.move_down,
      Snake.move_left, if_not_swap]

/-- A turn request changes nothing but (possibly) the pending heading. -/
theorem requestDir_fields (s : Snake) (d : Direction) :
    (requestDir s d).body = s.body ∧
    (requestDir s d).prev_direction = s.prev_direction ∧
    (requestDir s d).period = s.period ∧
    (requestDir s d).tick = s.tick ∧
    (requestDir s d).score = s.score ∧
    (requestDir s d).dead = s.dead := by
  rw [requestDir_eq]
  split <;> exact ⟨rfl, rfl, rfl, rfl, rfl, rfl⟩

theorem getLast?_getD_cons {α : Type} (l : List α) (a x : α) :
    ((a :: l).getLast?).getD x = (l.getLast?).getD a := by
  cases l with
  | nil => rfl
  | cons b t =>
    rw [List.getLast?_cons_cons]
    cases hgl : (b :: t).getLast? with
    | none => simp at hgl
    | some v => rfl

/-- Folding a list of turn requests: the pending heading ends up being the
last request that was not opposite to the committed heading (which never
changes), or the original heading when every request was rejected. -/
theorem foldl_requestDir_direction (ds : List Direction) (s : Snake) :
    (ds.foldl requestDir s).direction =
      ((ds.filter fun e => ! s.prev_direction.is_opposite e).getLast?).getD
        s.direction := by
  induction ds generalizing s with
  | nil => rfl
  | cons d rest ih =>
    rw [List.foldl_cons, ih]
    have hprev : (requestDir s d).prev_direction = s.prev_direction :=
      (requestDir_fields s d).2.1
    rw [hprev]
    cases hacc : s.prev_direction.is_opposite d with
    | false =>
      have : requestDir s d = { s with direction := d } := by
        rw [requestDir_eq, hacc]; rfl
      rw [this, List.filter_cons]
      simp only [hacc, Bool.not_false, if_pos]
      rw [getLast?_getD_cons]
    | true =>
      have : requestDir s d = s := by rw [requestDir_eq, hacc]; rfl
      rw [this, List.filter_cons]
      simp [hacc]

theorem foldl_requestDir_prev (ds : List Direction) (s : Snake) :
    (ds.foldl requestDir s).prev_direction = s.prev_direction := by
  induction ds generalizing s with
  | nil => rfl
  | cons d rest ih => rw [List.foldl_cons, ih, (requestDir_fields s d).2.1]

/-! ## Claim theorems: direction algebra, turn requests, dead state -/

/-- C9: for every direction, `cw` then `ccw` is the identity, rotating twice
clockwise yields the opposite direction, `is_opposite` holds exactly when the
integer difference of the encodings is 2 mod 4, and `is_opposite` is
symmetric — all through the wrapping u32 arithmetic of the implementation. -/
theorem direction_rotation_opposite_algebra :
    ∀ d d1 d2 : Direction,
      d.cw.ccw = d ∧
      d.is_opposite (d.cw.cw) = true ∧
      (d1.is_opposite d2 = true ↔
        ((u32OfDirection d1 : Int) - (u32OfDirection d2 : Int)) % 4 = 2) ∧
      d1.is_opposite d2 = d2.is_opposite d1 := by
  intro d d1 d2
  cases d <;> cases d1 <;> cases d2 <;> decide

/-- C3: a turn request opposite to the committed heading `prev_direction`
leaves the pending heading unchanged, any other request sets it; among many
requests between moves the last accepted one is in effect (the committed
heading is untouched by requests). -/
theorem snake_turn_request_policy (s : Snake) (d : Direction) (ds : List Direction) :
    requestDir s d =
      (if s.prev_direction.is_opposite d then s else { s with direction := d }) ∧
    (ds.foldl requestDir s).direction =
      ((ds.filter fun e => ! s.prev_direction.is_opposite e).getLast?).getD
        s.direction ∧
    (ds.foldl requestDir s).prev_direction = s.prev_direction :=
  ⟨requestDir_eq s d, foldl_requestDir_direction ds s, foldl_requestDir_prev ds s⟩

/-! ## Evaluation lemmas for `Snake::update` -/

/-- A dead snake: `update` returns the world unchanged (main.rs lines 266-268). -/
theorem update_dead {w : World} (h : w.snake.dead = true) : Snake.update w = some w := by
  unfold Snake.update
  simp [h]

/-- Timer not expired: only the tick counter is incremented. -/
theorem update_slow {w : World} (h1 : w.snake.dead = false)
    (h2 : ¬ (w.snake.tick + 1) % u32Mod > w.snake.period) :
    Snake.update w =
      some { w with snake := { w.snake with tick := (w.snake.tick + 1) % u32Mod } } := by
  unfold Snake.update
  simp [h1, h2]

/-- `check_collision` does not depend on the snake's tick counter. -/
theorem check_collision_tick (w : World) (t : Nat) (id : ObjectId) (x y : Nat) :
    World.check_collision { w with snake := { w.snake with tick := t } } id x y =
      World.check_collision w id x y := rfl

/-- Timer expired: `update` reduces to the collision-directed move step. -/
theorem update_fire {w : World} {x y : Nat} {rest : List (Nat × Nat)}
    (h1 : w.snake.dead = false) (hb : w.snake.body = (x, y) :: rest)
    (h2 : (w.snake.tick + 1) % u32Mod > w.snake.period) :
    Snake.update w =
      (let cand := Snake.next_head w.snake x y
       let oid := World.check_collision w ObjectId.SnakeHead cand.1 cand.2
       let snakeAfter : Option Snake :=
         if oid = some ObjectId.LevelBound then
           some { w.snake with tick := 0, dead := true }
         else if oid = some ObjectId.SnakeTail then
           some { w.snake with tick := 0, dead := true }
         else if oid = some ObjectId.Apple then
           Snake.grow { w.snake with tick := 0 } 1
         else some { w.snake with tick := 0 }
       match snakeAfter with
       | none => none
       | some s2 =>
         if s2.dead then some { w with snake := s2 }
         else
           some { w with snake :=
             { s2 with
               body := ((cand.1, cand.2) :: s2.body).dropLast
               prev_direction := s2.direction } }) := by
  unfold Snake.update
  rw [if_neg (by simp [h1]), if_pos h2, hb]
  rfl

/-- A fatal collision outcome: mark dead, reset the timer, move nothing. -/
theorem update_fire_killed {w : World} {x y : Nat} {rest : List (Nat × Nat)}
    (h1 : w.snake.dead = false) (hb : w.snake.body = (x, y) :: rest)
    (h2 : (w.snake.tick + 1) % u32Mod > w.snake.period)
    (hoid : World.check_collision w ObjectId.SnakeHead
        (Snake.next_head w.snake x y).1 (Snake.next_head w.snake x y).2 =
        some ObjectId.LevelBound ∨
      World.check_collision w ObjectId.SnakeHead
        (Snake.next_head w.snake x y).1 (Snake.next_head w.snake x y).2 =
        some ObjectId.SnakeTail) :
    Snake.update w = some { w with snake := { w.snake with tick := 0, dead := true } } := by
  rw [update_fire h1 hb h2]
  rcases hoid with h | h <;> simp [h]

/-- The apple outcome: grow by one, then move; net effect is the candidate
head pushed in front of the unchanged body. -/
theorem update_fire_grow {w : World} {x y : Nat} {rest : List (Nat × Nat)}
    (h1 : w.snake.dead = false) (hb : w.snake.body = (x, y) :: rest)
    (h2 : (w.snake.tick + 1) % u32Mod > w.snake.period)
    (hoid : World.check_collision w ObjectId.SnakeHead
        (Snake.next_head w.snake x y).1 (Snake.next_head w.snake x y).2 =
        some ObjectId.Apple) :
    Snake.update w = some { w with snake :=
      { w.snake with
        tick := 0
        body := Snake.next_head w.snake x y :: w.snake.body
        prev_direction := w.snake.direction } } := by
  rw [update_fire h1 hb h2]
  simp only [hoid]
  cases hgl : (({ w.snake with tick := 0 } : Snake).body.getLast?) with
  | none =>
    rw [List.getLast?_eq_none_iff] at hgl
    exact absurd (hb ▸ hgl) (List.cons_ne_nil _ _)
  | some back =>
    simp only [Snake.grow, hgl]
    simp [h1, hb, List.replicate]
    rw [← List.cons_append, List.dropLast_concat]

/-- No collision (or only the skipped head match): plain move. -/
theorem update_fire_plain {w : World} {x y : Nat} {rest : List (Nat × Nat)}
    (h1 : w.snake.dead = false) (hb : w.snake.body = (x, y) :: rest)
    (h2 : (w.snake.tick + 1) % u32Mod > w.snake.period)
    (hoid1 : World.check_collision w ObjectId.SnakeHead
        (Snake.next_head w.snake x y).1 (Snake.next_head w.snake x y).2 ≠
        some ObjectId.LevelBound)
    (hoid2 : World.check_collision w ObjectId.SnakeHead
        (Snake.next_head w.snake x y).1 (Snake.next_head w.snake x y).2 ≠
        some ObjectId.SnakeTail)
    (hoid3 : World.check_collision w ObjectId.SnakeHead
        (Snake.next_head w.snake x y).1 (Snake.next_head w.snake x y).2 ≠
        some ObjectId.Apple) :
    Snake.update w = some { w with snake :=
      { w.snake with
        tick := 0
        body := (Snake.next_head w.snake x y :: w.snake.body).dropLast
        prev_direction := w.snake.direction } } := by
  rw [update_fire h1 hb h2]
  simp [hoid1, hoid2, hoid3, h1]

/-! ## Lemmas about `check_collision` for the snake-head requester -/

/-- A cell outside the interior is a `LevelBound` collision for the head. -/
theorem cc_head_outside {w : World} {x y : Nat}
    (h : w.level_bounds.is_inside x y = false) :
    World.check_collision w ObjectId.SnakeHead x y = some ObjectId.LevelBound := by
  unfold World.check_collision
  rw [if_pos ⟨by decide, h⟩]

/-- If the result is not `LevelBound`, the cell is strictly interior. -/
theorem cc_head_inside_of_ne {w : World} {x y : Nat}
    (h : World.check_collision w ObjectId.SnakeHead x y ≠ some ObjectId.LevelBound) :
    w.level_bounds.is_inside x y = true := by
  cases hin : w.level_bounds.is_inside x y with
  | false => exact absurd (cc_head_outside hin) h
  | true => rfl

/-- An interior cell on a non-head segment (and off the head) is a
`SnakeTail` collision for the head. -/
theorem cc_head_tail {w : World} {x y : Nat} {p : Nat × Nat} {rest : List (Nat × Nat)}
    (hb : w.snake.body = p :: rest)
    (hin : w.level_bounds.is_inside x y = true)
    (hne : p ≠ (x, y)) (hmem : (x, y) ∈ rest) :
    World.check_collision w ObjectId.SnakeHead x y = some ObjectId.SnakeTail := by
  unfold World.check_collision
  rw [if_neg (by simp [hin])]
  have hic : w.snake.is_collision x y = some SnakeCollision.Tail := by
    unfold Snake.is_collision
    rw [hb]
    simp [hne, hmem]
  rw [hic]
  simp

/-- An interior cell off the whole body that carries the apple is an
`Apple` collision for the head. -/
theorem cc_head_apple {w : World} {x y : Nat}
    (hin : w.level_bounds.is_inside x y = true)
    (hnc : w.snake.is_collision x y = none)
    (happ : w.apple.pos = some (x, y)) :
    World.check_collision w ObjectId.SnakeHead x y = some ObjectId.Apple := by
  unfold World.check_collision
  rw [if_neg (by simp [hin]), hnc]
  simp [happ]

/-- `Snake::update` never panics on a nonempty body. -/
theorem update_total {w : World} (hbody : w.snake.body ≠ []) :
    ∃ w', Snake.update w = some w' := by
  by_cases hd : w.snake.dead = true
  · exact ⟨w, update_dead hd⟩
  have h1 : w.snake.dead = false := by simpa using hd
  by_cases h2 : (w.snake.tick + 1) % u32Mod > w.snake.period
  · obtain ⟨⟨x, y⟩, rest, hb⟩ : ∃ p rest, w.snake.body = p :: rest := by
      cases hcl : w.snake.body with
      | nil => exact absurd hcl hbody
      | cons p r => exact ⟨p, r, rfl⟩
    by_cases hLB : World.check_collision w ObjectId.SnakeHead
        (Snake.next_head w.snake x y).1 (Snake.next_head w.snake x y).2 =
        some ObjectId.LevelBound
    · exact ⟨_, update_fire_killed h1 hb h2 (Or.inl hLB)⟩
    by_cases hST : World.check_collision w ObjectId.SnakeHead
        (Snake.next_head w.snake x y).1 (Snake.next_head w.snake x y).2 =
        some ObjectId.SnakeTail
    · exact ⟨_, update_fire_killed h1 hb h2 (Or.inr hST)⟩
    by_cases hAp : World.check_collision w ObjectId.SnakeHead
        (Snake.next_head w.snake x y).1 (Snake.next_head w.snake x y).2 =
        some ObjectId.Apple
    · exact ⟨_, update_fire_grow h1 hb h2 hAp⟩
    · exact ⟨_, update_fire_plain h1 hb h2 hLB hST hAp⟩
  · exact ⟨_, update_slow h1 h2⟩

/-! ## Claims C1 and C6 -/

/-- C1: when the timer expires and the candidate head cell is outside the
interior or on a non-head body segment, `Snake::update` marks the snake dead
and applies no move: the resulting world differs from the input only in
`tick` (reset to 0) and `dead`; in particular the body deque and
`prev_direction` are untouched. -/
theorem snake_update_fatal_collision_no_move (w : World) (x y : Nat)
    (rest : List (Nat × Nat))
    (h1 : w.snake.dead = false) (hb : w.snake.body = (x, y) :: rest)
    (h2 : (w.snake.tick + 1) % u32Mod > w.snake.period)
    (hbad : w.level_bounds.is_inside (Snake.next_head w.snake x y).1
        (Snake.next_head w.snake x y).2 = false ∨
      Snake.next_head w.snake x y ∈ rest) :
    Snake.update w = some { w with snake := { w.snake with tick := 0, dead := true } } := by
  apply update_fire_killed h1 hb h2
  rcases hbad with hout | hmem
  · exact Or.inl (cc_head_outside hout)
  · cases hin : w.level_bounds.is_inside (Snake.next_head w.snake x y).1
        (Snake.next_head w.snake x y).2 with
    | false => exact Or.inl (cc_head_outside hin)
    | true =>
      refine Or.inr (cc_head_tail hb hin (fun hc => ?_) ?_)
      · exact next_head_ne w.snake x y hc.symm
      · simpa using hmem

/-- The concrete world for the C1 witness: head at (28, 3) heading right,
timer about to expire; the candidate cell (29, 3) lies on the wall. -/
def c1World : World :=
  { snake := { Snake.new with body := [(28, 3), (27, 3)], tick := 24 }
    level_bounds := LevelBounds.new 0 0 30 20
    apple := { pos := none } }

theorem snake_update_fatal_collision_witness :
    Snake.update c1World =
      some { c1World with snake := { c1World.snake with tick := 0, dead := true } } :=
  snake_update_fatal_collision_no_move c1World 28 3 [(27, 3)] rfl rfl (by decide)
    (Or.inl (by decide))

/-- C6 counterexample: on a dead snake, `Snake::move_up` still mutates the
pending direction, so it does not leave the snake state unchanged. -/
def c6Dead : Snake := { Snake.new with dead := true }

theorem dead_move_up_changes_state : Snake.move_up c6Dead ≠ c6Dead := by decide

/-- C6 (amended): dead is terminal for `Snake::update` (the whole world is
returned unchanged), and the four `move_*` operations on a dead snake leave
`body`, `prev_direction`, `tick`, `score` and `dead` unchanged — but they may
still overwrite the pending `direction` field, since `move_*` does not test
`dead`. -/
theorem dead_state_terminal_amended (w : World) (h : w.snake.dead = true) :
    Snake.update w = some w ∧
    ∀ m ∈ [Snake.move_up, Snake.move_right, Snake.move_down, Snake.move_left],
      (m w.snake).body = w.snake.body ∧
      (m w.snake).prev_direction = w.snake.prev_direction ∧
      (m w.snake).tick = w.snake.tick ∧
      (m w.snake).score = w.snake.score ∧
      (m w.snake).dead = true := by
  refine ⟨update_dead h, ?_⟩
  intro m hm
  have hd : m = Snake.move_up ∨ m = Snake.move_right ∨ m = Snake.move_down ∨
      m = Snake.move_left := by simpa using hm
  rcases hd with rfl | rfl | rfl | rfl
  · obtain ⟨h1, h2, _, h4, h5, h6⟩ := requestDir_fields w.snake Direction.Up
    exact ⟨h1, h2, h4, h5, h6.trans h⟩
  · obtain ⟨h1, h2, _, h4, h5, h6⟩ := requestDir_fields w.snake Direction.Right
    exact ⟨h1, h2, h4, h5, h6.trans h⟩
  · obtain ⟨h1, h2, _, h4, h5, h6⟩ := requestDir_fields w.snake Direction.Down
    exact ⟨h1, h2, h4, h5, h6.trans h⟩
  · obtain ⟨h1, h2, _, h4, h5, h6⟩ := requestDir_fields w.snake Direction.Left
    exact ⟨h1, h2, h4, h5, h6.trans h⟩

/-- The concrete world for the C6 witness. -/
def c6World : World :=
  { snake := c6Dead
    level_bounds := LevelBounds.new 0 0 30 20
    apple := { pos := none } }

theorem dead_state_terminal_witness :
    Snake.update c6World = some c6World ∧ (Snake.move_up c6Dead).dead = true := by
  have h := dead_state_terminal_amended c6World rfl
  exact ⟨h.1, (h.2 Snake.move_up (by simp)).2.2.2.2⟩

/-! ## Claim C4: the move period -/

/-- While the timer stays at or below the period, iterated updates only count
ticks: after `n` calls the only change is `tick := tick + n` (the u32 wrap of
the increment never triggers, since the counter stays at most
`period < 2^32`). -/
theorem iterate_update_slow (n : Nat) :
    ∀ w : World, w.snake.dead = false → w.snake.period < u32Mod →
      w.snake.tick + n ≤ w.snake.period →
      iterate_update n w =
        some { w with snake := { w.snake with tick := w.snake.tick + n } } := by
  induction n with
  | zero => intro w _ _ _; rfl
  | succ k ih =>
    intro w h1 hper h2
    have hmod : (w.snake.tick + 1) % u32Mod = w.snake.tick + 1 :=
      Nat.mod_eq_of_lt (by omega)
    have hs : Snake.update w =
        some { w with snake := { w.snake with tick := w.snake.tick + 1 } } := by
      rw [update_slow h1 (by rw [hmod]; omega), hmod]
    simp only [iterate_update, hs]
    rw [ih { w with snake := { w.snake with tick := w.snake.tick + 1 } } h1 hper
      (by show w.snake.tick + 1 + k ≤ w.snake.period; omega)]
    have harith : w.snake.tick + 1 + k = w.snake.tick + (k + 1) := by omega
    simp [harith]

/-- Unfolding `iterate_update` from the right. -/
theorem iterate_update_succ_right (n : Nat) :
    ∀ w : World, iterate_update (n + 1) w =
      match iterate_update n w with
      | none => none
      | some w' => Snake.update w' := by
  induction n with
  | zero =>
    intro w
    simp only [iterate_update]
    cases Snake.update w <;> rfl
  | succ k ih =>
    intro w
    simp only [iterate_update]
    cases hu : Snake.update w with
    | none => rfl
    | some w1 => exact ih w1

/-- When the timer fires, every outcome of the move step resets it to 0. -/
theorem update_fire_tick {w : World} {x y : Nat} {rest : List (Nat × Nat)}
    (h1 : w.snake.dead = false) (hb : w.snake.body = (x, y) :: rest)
    (h2 : (w.snake.tick + 1) % u32Mod > w.snake.period) :
    ∃ w', Snake.update w = some w' ∧ w'.snake.tick = 0 := by
  by_cases hLB : World.check_collision w ObjectId.SnakeHead
      (Snake.next_head w.snake x y).1 (Snake.next_head w.snake x y).2 =
      some ObjectId.LevelBound
  · exact ⟨_, update_fire_killed h1 hb h2 (Or.inl hLB), rfl⟩
  by_cases hST : World.check_collision w ObjectId.SnakeHead
      (Snake.next_head w.snake x y).1 (Snake.next_head w.snake x y).2 =
      some ObjectId.SnakeTail
  · exact ⟨_, update_fire_killed h1 hb h2 (Or.inr hST), rfl⟩
  by_cases hAp : World.check_collision w ObjectId.SnakeHead
      (Snake.next_head w.snake x y).1 (Snake.next_head w.snake x y).2 =
      some ObjectId.Apple
  · exact ⟨_, update_fire_grow h1 hb h2 hAp, rfl⟩
  · exact ⟨_, update_fire_plain h1 hb h2 hLB hST hAp, rfl⟩

/-- C4: for an alive snake, one call of `Snake::update` executes the move
step exactly when the incremented tick counter — the u32-wrapped
`(tick + 1) % 2^32`, as the program computes it — exceeds `period`: on a
non-move call the world changes only in the tick counter, and on a move call
the timer resets to 0 and, when the snake survives, the head has advanced to
the candidate cell, which differs from the old head.  Starting from
`tick = 0`, provided `period + 1` does not overflow u32 (true of the actual
period 24; at `period = 2^32 - 1` the counter wraps to 0 before ever
exceeding it and the program never moves), the first `period` calls are all
non-move calls and the `(period + 1)`-th call executes the move step: one
move per `period + 1` calls. -/
theorem snake_update_move_period (w : World) (x y : Nat) (rest : List (Nat × Nat))
    (h1 : w.snake.dead = false) (hb : w.snake.body = (x, y) :: rest) :
    (∃ w', Snake.update w = some w' ∧
      ((w.snake.tick + 1) % u32Mod ≤ w.snake.period →
        w' = { w with snake :=
          { w.snake with tick := (w.snake.tick + 1) % u32Mod } }) ∧
      ((w.snake.tick + 1) % u32Mod > w.snake.period →
        w'.snake.tick = 0 ∧
        (w'.snake.dead = false →
          w'.snake.body.head? = some (Snake.next_head w.snake x y) ∧
          Snake.next_head w.snake x y ≠ (x, y)))) ∧
    (w.snake.tick = 0 → w.snake.period + 1 < u32Mod →
      (∀ n, n ≤ w.snake.period →
        iterate_update n w = some { w with snake := { w.snake with tick := n } }) ∧
      ∃ w2, iterate_update (w.snake.period + 1) w = some w2 ∧ w2.snake.tick = 0) := by
  constructor
  · by_cases h2 : (w.snake.tick + 1) % u32Mod > w.snake.period
    · by_cases hLB : World.check_collision w ObjectId.SnakeHead
          (Snake.next_head w.snake x y).1 (Snake.next_head w.snake x y).2 =
          some ObjectId.LevelBound
      · refine ⟨_, update_fire_killed h1 hb h2 (Or.inl hLB), fun hc => absurd h2 (by omega),
          fun _ => ⟨rfl, fun hdead => by simp at hdead⟩⟩
      · by_cases hST : World.check_collision w ObjectId.SnakeHead
            (Snake.next_head w.snake x y).1 (Snake.next_head w.snake x y).2 =
            some ObjectId.SnakeTail
        · refine ⟨_, update_fire_killed h1 hb h2 (Or.inr hST), fun hc => absurd h2 (by omega),
            fun _ => ⟨rfl, fun hdead => by simp at hdead⟩⟩
        · by_cases hAp : World.check_collision w ObjectId.SnakeHead
              (Snake.next_head w.snake x y).1 (Snake.next_head w.snake x y).2 =
              some ObjectId.Apple
          · exact ⟨_, update_fire_grow h1 hb h2 hAp, fun hc => absurd h2 (by omega),
              fun _ => ⟨rfl, fun _ => ⟨rfl, next_head_ne w.snake x y⟩⟩⟩
          · refine ⟨_, update_fire_plain h1 hb h2 hLB hST hAp,
              fun hc => absurd h2 (by omega), fun _ => ⟨rfl, fun _ => ?_⟩⟩
            refine ⟨?_, next_head_ne w.snake x y⟩
            show ((Snake.next_head w.snake x y :: w.snake.body).dropLast).head? =
              some (Snake.next_head w.snake x y)
            rw [hb, List.dropLast_cons₂]
            rfl
    · exact ⟨_, update_slow h1 h2, fun _ => rfl, fun hc => absurd hc h2⟩
  · intro h0 hper1
    have hper : w.snake.period < u32Mod := by omega
    have hiter : ∀ n, n ≤ w.snake.period →
        iterate_update n w = some { w with snake := { w.snake with tick := n } } := by
      intro n hn
      have := iterate_update_slow n w h1 hper (by omega)
      rw [this, h0]
      simp
    refine ⟨hiter, ?_⟩
    have hP := hiter w.snake.period (Nat.le_refl _)
    have hfire : (({ w with snake := { w.snake with tick := w.snake.period } } :
        World).snake.tick + 1) % u32Mod >
        ({ w with snake := { w.snake with tick := w.snake.period } } : World).snake.period := by
      show (w.snake.period + 1) % u32Mod > w.snake.period
      rw [Nat.mod_eq_of_lt hper1]
      omega
    obtain ⟨w2, hw2, ht2⟩ := update_fire_tick (w := { w with snake :=
      { w.snake with tick := w.snake.period } }) h1 hb hfire
    refine ⟨w2, ?_, ht2⟩
    rw [iterate_update_succ_right, hP]
    exact hw2

/-- The concrete world for the C4 witness: the fresh world with tick 0. -/
theorem snake_update_move_period_witness :
    Snake.update initWorld =
      some { initWorld with snake := { Snake.new with tick := 1 } } := by
  have h := snake_update_move_period initWorld 10 3
    [(9, 3), (8, 3), (7, 3), (6, 3), (5, 3), (4, 3), (3, 3)] rfl rfl
  obtain ⟨w', hu, hslow, _⟩ := h.1
  rw [hu, hslow (by decide)]
  rfl

/-! ## Claim C5: growth on food -/

/-- C5: when the move fires and the candidate head cell is interior, off the
whole body, and carries the apple, the update grows the snake: the new body is
the candidate cell pushed onto the unchanged old body, so the length grows by
exactly one, the new head is the candidate cell, and the resulting tail
segment equals the pre-growth tail position. -/
theorem snake_update_growth_on_food (w : World) (x y : Nat)
    (rest : List (Nat × Nat))
    (h1 : w.snake.dead = false) (hb : w.snake.body = (x, y) :: rest)
    (h2 : (w.snake.tick + 1) % u32Mod > w.snake.period)
    (hin : w.level_bounds.is_inside (Snake.next_head w.snake x y).1
      (Snake.next_head w.snake x y).2 = true)
    (hnot : Snake.next_head w.snake x y ∉ w.snake.body)
    (happ : w.apple.pos = some (Snake.next_head w.snake x y)) :
    ∃ w', Snake.update w = some w' ∧
      w'.snake.body = Snake.next_head w.snake x y :: w.snake.body ∧
      w'.snake.body.length = w.snake.body.length + 1 ∧
      w'.snake.body.head? = some (Snake.next_head w.snake x y) ∧
      w'.snake.body.getLast? = w.snake.body.getLast? ∧
      w'.snake.dead = false := by
  have hnc : w.snake.is_collision (Snake.next_head w.snake x y).1
      (Snake.next_head w.snake x y).2 = none := by
    rw [is_collision_eq_none_iff]
    simpa using hnot
  have happ2 : w.apple.pos =
      some ((Snake.next_head w.snake x y).1, (Snake.next_head w.snake x y).2) := happ
  have hoid := cc_head_apple hin hnc happ2
  refine ⟨_, update_fire_grow h1 hb h2 hoid, rfl, by simp, rfl, ?_, h1⟩
  show (Snake.next_head w.snake x y :: w.snake.body).getLast? = w.snake.body.getLast?
  rw [hb, List.getLast?_cons_cons]

/-- The concrete world for the C5 witness: the fresh snake with its timer
about to fire and the apple at (11, 3), directly in front of the head. -/
def c5World : World :=
  { snake := { Snake.new with tick := 24 }
    level_bounds := LevelBounds.new 0 0 30 20
    apple := { pos := some (11, 3) } }

theorem snake_update_growth_on_food_witness :
    ∃ w', Snake.update c5World = some w' ∧
      w'.snake.body = Snake.next_head c5World.snake 10 3 :: c5World.snake.body ∧
      w'.snake.body.length = c5World.snake.body.length + 1 ∧
      w'.snake.body.head? = some (Snake.next_head c5World.snake 10 3) ∧
      w'.snake.body.getLast? = c5World.snake.body.getLast? ∧
      w'.snake.dead = false :=
  snake_update_growth_on_food c5World 10 3
    [(9, 3), (8, 3), (7, 3), (6, 3), (5, 3), (4, 3), (3, 3)]
    rfl rfl (by decide) (by decide) (by decide) (by decide)

/-! ## Claim C2: the collision-resolution priority order -/

/-- `is_collision` reports `Head` exactly when the cell is on body segment 0. -/
theorem is_collision_head_iff (s : Snake) (x y : Nat) :
    s.is_collision x y = some SnakeCollision.Head ↔ s.body.head? = some (x, y) := by
  unfold Snake.is_collision
  cases hb : s.body with
  | nil => simp
  | cons p rest =>
    by_cases hp : p = (x, y) <;> by_cases ht : (x, y) ∈ rest <;> simp [hp, ht]

/-- `is_collision` reports `Tail` exactly when the cell is on a later body
segment and is not the cell of body segment 0. -/
theorem is_collision_tail_iff (s : Snake) (x y : Nat) :
    s.is_collision x y = some SnakeCollision.Tail ↔
      s.body.head? ≠ some (x, y) ∧ (x, y) ∈ s.body.tail := by
  unfold Snake.is_collision
  cases hb : s.body with
  | nil => simp
  | cons p rest =>
    by_cases hp : p = (x, y) <;> by_cases ht : (x, y) ∈ rest <;> simp [hp, ht]

/-- The priority order of the claim, taken literally: each of the four checks
is a predicate on the cell — outside-interior, equals body segment 0, equals
any other body segment, equals the food position — skipped exactly when the
requester is that object, first match wins.  This definition follows the
specification text, for comparison with `World.check_collision`. -/
def check_collision_spec (w : World) (id : ObjectId) (x y : Nat) : Option ObjectId :=
  if id ≠ ObjectId.LevelBound ∧ w.level_bounds.is_inside x y = false then
    some ObjectId.LevelBound
  else if id ≠ ObjectId.SnakeHead ∧ w.snake.body.head? = some (x, y) then
    some ObjectId.SnakeHead
  else if id ≠ ObjectId.SnakeTail ∧ (x, y) ∈ w.snake.body.tail then
    some ObjectId.SnakeTail
  else if id ≠ ObjectId.Apple ∧ w.apple.pos = some (x, y) then
    some ObjectId.Apple
  else none

/-- The amended priority order: as in `check_collision_spec`, except that the
`SnakeTail` check additionally requires the cell to differ from body segment 0
— the code classifies the cell as a head match first, so when the requester is
the head and the cell lies on segment 0, a coinciding later segment is not
reported as `SnakeTail`. -/
def check_collision_amended (w : World) (id : ObjectId) (x y : Nat) : Option ObjectId :=
  if id ≠ ObjectId.LevelBound ∧ w.level_bounds.is_inside x y = false then
    some ObjectId.LevelBound
  else if id ≠ ObjectId.SnakeHead ∧ w.snake.body.head? = some (x, y) then
    some ObjectId.SnakeHead
  else if id ≠ ObjectId.SnakeTail ∧ w.snake.body.head? ≠ some (x, y) ∧
      (x, y) ∈ w.snake.body.tail then
    some ObjectId.SnakeTail
  else if id ≠ ObjectId.Apple ∧ w.apple.pos = some (x, y) then
    some ObjectId.Apple
  else none

/-- A world whose snake body has segment 2 coinciding with the head cell
(such bodies are constructible states of the data type, e.g. after growth
duplicated segments; the claim quantifies over every World state). -/
def c2World : World :=
  { snake := { body := [(5, 5), (4, 5), (5, 5)], prev_direction := Direction.Right
               direction := Direction.Right, period := 24, tick := 0, score := 0
               dead := false }
    level_bounds := LevelBounds.new 0 0 30 20
    apple := { pos := none } }

/-- C2 counterexample: for the head requester at a cell equal to body segment
0 and also to body segment 2, the claimed priority order yields `SnakeTail`
(the head check is skipped, the cell lies on another body segment), but the
code returns `none`. -/
theorem check_collision_priority_cex :
    World.check_collision c2World ObjectId.SnakeHead 5 5 = none ∧
    check_collision_spec c2World ObjectId.SnakeHead 5 5 = some ObjectId.SnakeTail ∧
    World.check_collision c2World ObjectId.SnakeHead 5 5 ≠
      check_collision_spec c2World ObjectId.SnakeHead 5 5 := by
  refine ⟨by decide, by decide, by decide⟩

/-- C2 (amended): `World::check_collision` implements the claimed priority
order — LevelBound, then SnakeHead, then SnakeTail, then Apple, each check
skipped exactly when the requester is that object — with the one correction
that the SnakeTail check also requires the cell to differ from body segment 0. -/
theorem check_collision_priority_amended (w : World) (id : ObjectId) (x y : Nat) :
    World.check_collision w id x y = check_collision_amended w id x y := by
  unfold World.check_collision check_collision_amended
  by_cases hlb : id ≠ ObjectId.LevelBound ∧ w.level_bounds.is_inside x y = false
  · rw [if_pos hlb, if_pos hlb]
  · rw [if_neg hlb, if_neg hlb]
    cases hic : w.snake.is_collision x y with
    | none =>
      have hnm : (x, y) ∉ w.snake.body := (is_collision_eq_none_iff w.snake x y).mp hic
      have hh : ¬ w.snake.body.head? = some (x, y) := by
        intro hcontra
        exact hnm (List.mem_of_mem_head? hcontra)
      have htl : (x, y) ∉ w.snake.body.tail := by
        intro hcontra
        exact hnm (List.mem_of_mem_tail hcontra)
      simp [hh, htl]
    | some c =>
      cases c with
      | Head =>
        have hh : w.snake.body.head? = some (x, y) :=
          (is_collision_head_iff w.snake x y).mp hic
        by_cases hid : id = ObjectId.SnakeHead <;> simp [hh, hid]
      | Tail =>
        obtain ⟨hh, htl⟩ := (is_collision_tail_iff w.snake x y).mp hic
        by_cases hid : id = ObjectId.SnakeTail <;> simp [hh, htl, hid]

/-! ## The reachability invariant -/

/-- `Apple::update` never touches the snake or the bounds. -/
theorem apple_update_snake {w w' : World} {c1 c2 : List (Nat × Nat)}
    (h : Apple.update w c1 c2 = some w') :
    w'.snake = w.snake ∧ w'.level_bounds = w.level_bounds := by
  unfold Apple.update at h
  simp only [] at h
  split at h
  · exact absurd h (by simp)
  next w1 heq =>
    have hw1 : w1.snake = w.snake ∧ w1.level_bounds = w.level_bounds := by
      split at heq
      · split at heq
        · exact absurd heq (by simp)
        · injection heq with heq; rw [← heq]; exact ⟨rfl, rfl⟩
      · injection heq with heq; rw [← heq]; exact ⟨rfl, rfl⟩
    split at h
    · injection h with h; rw [← h]; exact hw1
    · split at h
      · split at h
        · exact absurd h (by simp)
        · injection h with h; rw [← h]; exact hw1
      · injection h with h; rw [← h]; exact hw1

/-- The invariant maintained by every game-loop operation: the bounds are the
fixed level, the body is nonempty, every body segment is strictly interior,
and the score is 0 (nothing in the code ever writes to `score`). -/
def WorldInv (w : World) : Prop :=
  w.level_bounds = LevelBounds.new 0 0 30 20 ∧
  w.snake.body ≠ [] ∧
  (∀ p ∈ w.snake.body, w.level_bounds.is_inside p.1 p.2 = true) ∧
  w.snake.score = 0

theorem worldInv_init : WorldInv initWorld := by
  unfold WorldInv
  decide

/-- `Snake::update` preserves the invariant. -/
theorem snake_update_inv {w w' : World} (hinv : WorldInv w)
    (hstep : Snake.update w = some w') : WorldInv w' := by
  obtain ⟨hbnd, hne, hins, hscore⟩ := hinv
  by_cases hd : w.snake.dead = true
  · rw [update_dead hd] at hstep
    injection hstep with hstep
    rw [← hstep]
    exact ⟨hbnd, hne, hins, hscore⟩
  have h1 : w.snake.dead = false := by simpa using hd
  by_cases h2 : (w.snake.tick + 1) % u32Mod > w.snake.period
  case neg =>
    rw [update_slow h1 h2] at hstep
    injection hstep with hstep
    rw [← hstep]
    exact ⟨hbnd, hne, hins, hscore⟩
  case pos =>
    obtain ⟨⟨x, y⟩, rest, hb⟩ : ∃ p rest, w.snake.body = p :: rest := by
      cases hcl : w.snake.body with
      | nil => exact absurd hcl hne
      | cons p r => exact ⟨p, r, rfl⟩
    by_cases hLB : World.check_collision w ObjectId.SnakeHead
        (Snake.next_head w.snake x y).1 (Snake.next_head w.snake x y).2 =
        some ObjectId.LevelBound
    · rw [update_fire_killed h1 hb h2 (Or.inl hLB)] at hstep
      injection hstep with hstep
      rw [← hstep]
      exact ⟨hbnd, hne, hins, hscore⟩
    by_cases hST : World.check_collision w ObjectId.SnakeHead
        (Snake.next_head w.snake x y).1 (Snake.next_head w.snake x y).2 =
        some ObjectId.SnakeTail
    · rw [update_fire_killed h1 hb h2 (Or.inr hST)] at hstep
      injection hstep with hstep
      rw [← hstep]
      exact ⟨hbnd, hne, hins, hscore⟩
    have hin : w.level_bounds.is_inside (Snake.next_head w.snake x y).1
        (Snake.next_head w.snake x y).2 = true := cc_head_inside_of_ne hLB
    by_cases hAp : World.check_collision w ObjectId.SnakeHead
        (Snake.next_head w.snake x y).1 (Snake.next_head w.snake x y).2 =
        some ObjectId.Apple
    · rw [update_fire_grow h1 hb h2 hAp] at hstep
      injection hstep with hstep
      rw [← hstep]
      refine ⟨hbnd, by simp, ?_, hscore⟩
      intro p hp
      rcases List.mem_cons.mp hp with rfl | hp2
      · exact hin
      · exact hins p hp2
    · rw [update_fire_plain h1 hb h2 hLB hST hAp] at hstep
      injection hstep with hstep
      rw [← hstep]
      refine ⟨hbnd, ?_, ?_, hscore⟩
      · show (Snake.next_head w.snake x y :: w.snake.body).dropLast ≠ []
        rw [hb, List.dropLast_cons₂]
        simp
      · intro p hp
        have hp2 : p ∈ Snake.next_head w.snake x y :: w.snake.body :=
          List.dropLast_subset _ hp
        rcases List.mem_cons.mp hp2 with rfl | hp3
        · exact hin
        · exact hins p hp3

/-- Turn requests preserve the invariant. -/
theorem requestDir_world_inv {w : World} (hinv : WorldInv w) (d : Direction) :
    WorldInv { w with snake := requestDir w.snake d } := by
  obtain ⟨hbnd, hne, hins, hscore⟩ := hinv
  obtain ⟨hbody, _, _, _, hsc, _⟩ := requestDir_fields w.snake d
  refine ⟨hbnd, ?_, ?_, ?_⟩
  · show (requestDir w.snake d).body ≠ []
    rw [hbody]; exact hne
  · intro p hp
    rw [show ({ w with snake := requestDir w.snake d } : World).snake.body =
      w.snake.body from hbody] at hp
    exact hins p hp
  · show (requestDir w.snake d).score = 0
    rw [hsc]; exact hscore

/-- Every game-loop operation preserves the invariant. -/
theorem applyOp_inv {w w' : World} {op : Op} (hinv : WorldInv w)
    (hstep : applyOp w op = some w') : WorldInv w' := by
  cases op with
  | moveUp => injection hstep with h; rw [← h]; exact requestDir_world_inv hinv Direction.Up
  | moveRight => injection hstep with h; rw [← h]; exact requestDir_world_inv hinv Direction.Right
  | moveDown => injection hstep with h; rw [← h]; exact requestDir_world_inv hinv Direction.Down
  | moveLeft => injection hstep with h; rw [← h]; exact requestDir_world_inv hinv Direction.Left
  | snakeUpd => exact snake_update_inv hinv hstep
  | appleUpd c1 c2 =>
    obtain ⟨hs, hlb⟩ := apple_update_snake hstep
    obtain ⟨hbnd, hne, hins, hscore⟩ := hinv
    refine ⟨hlb.trans hbnd, ?_, ?_, ?_⟩
    · rw [hs]; exact hne
    · intro p hp
      rw [hs] at hp
      rw [hlb]
      exact hins p hp
    · rw [hs]; exact hscore

/-- Every reachable world satisfies the invariant. -/
theorem reachable_inv {w : World} (h : Reachable w) : WorldInv w := by
  induction h with
  | init => exact worldInv_init
  | step w1 w2 op h1 h2 ih => exact applyOp_inv ih h2

/-! ## Claim C10: interiority, no underflow, totality -/

/-- Decoding `is_inside` at the fixed level bounds (0, 0, 30, 20). -/
theorem is_inside_std (x y : Nat) :
    (LevelBounds.new 0 0 30 20).is_inside x y = true ↔
      1 ≤ x ∧ x ≤ 28 ∧ 1 ≤ y ∧ y ≤ 18 := by
  unfold LevelBounds.is_inside LevelBounds.new
  have hmx : (0 + 30 + (u32Mod - 1)) % u32Mod = 29 := by decide
  have hmy : (0 + 20 + (u32Mod - 1)) % u32Mod = 19 := by decide
  rw [hmx, hmy]
  simp only [Bool.and_eq_true, decide_eq_true_eq]
  omega

/-- C10: on every reachable world, the body is nonempty and every body
segment is strictly interior, hence has coordinates at least 1, so the
wrapping u32 decrements of `Snake::update` compute the plain decrements
(never underflow) and `Snake::update` is total (never hits the `unwrap`
panic case). -/
theorem reachable_body_interior_no_underflow (w : World) (h : Reachable w) :
    w.snake.body ≠ [] ∧
    (∀ p ∈ w.snake.body, w.level_bounds.is_inside p.1 p.2 = true) ∧
    (∀ p ∈ w.snake.body, 1 ≤ p.1 ∧ 1 ≤ p.2 ∧
      (p.1 + (u32Mod - 1)) % u32Mod = p.1 - 1 ∧
      (p.2 + (u32Mod - 1)) % u32Mod = p.2 - 1) ∧
    ∃ w', Snake.update w = some w' := by
  obtain ⟨hbnd, hne, hins, _⟩ := reachable_inv h
  refine ⟨hne, hins, ?_, update_total hne⟩
  intro p hp
  have hi := hins p hp
  rw [hbnd, is_inside_std] at hi
  obtain ⟨hx1, hx2, hy1, hy2⟩ := hi
  refine ⟨hx1, hy1, ?_, ?_⟩
  · exact wrap_dec_eq p.1 hx1 (by unfold u32Mod; omega)
  · exact wrap_dec_eq p.2 hy1 (by unfold u32Mod; omega)

theorem reachable_body_interior_witness :
    initWorld.snake.body ≠ [] ∧
    (∀ p ∈ initWorld.snake.body, initWorld.level_bounds.is_inside p.1 p.2 = true) ∧
    (∀ p ∈ initWorld.snake.body, 1 ≤ p.1 ∧ 1 ≤ p.2 ∧
      (p.1 + (u32Mod - 1)) % u32Mod = p.1 - 1 ∧
      (p.2 + (u32Mod - 1)) % u32Mod = p.2 - 1) ∧
    ∃ w', Snake.update initWorld = some w' :=
  reachable_body_interior_no_underflow initWorld Reachable.init

/-! ## Claim C7: the score field -/

/-- C7 (amended): nothing in the code ever increments `score`; on every
reachable world the score is still its initial value 0, regardless of how
much food has been eaten. -/
theorem reachable_score_zero (w : World) (h : Reachable w) : w.snake.score = 0 :=
  (reachable_inv h).2.2.2

theorem reachable_score_zero_witness : initWorld.snake.score = 0 :=
  reachable_score_zero initWorld Reachable.init

/-- The intermediate worlds of the C7 counterexample trace: the fresh snake
with tick `n`, and the apple placed at (11, 3) in front of the head. -/
def c7W (n : Nat) : World :=
  { snake := { Snake.new with tick := n }
    level_bounds := LevelBounds.new 0 0 30 20
    apple := { pos := some (11, 3) } }

/-- The world right after the snake has eaten the apple: nine body segments,
score still 0. -/
def c7Post : World :=
  { snake := { body := [(11, 3), (10, 3), (9, 3), (8, 3), (7, 3), (6, 3),
                        (5, 3), (4, 3), (3, 3)]
               prev_direction := Direction.Right, direction := Direction.Right
               period := 24, tick := 0, score := 0, dead := false }
    level_bounds := LevelBounds.new 0 0 30 20
    apple := { pos := some (11, 3) } }

theorem c7_chain : ∀ n, n ≤ 24 → Reachable (c7W n) := by
  have hstep : ∀ m, m < 24 → applyOp (c7W m) Op.snakeUpd = some (c7W (m + 1)) := by
    decide
  intro n hn
  induction n with
  | zero =>
    exact Reachable.step initWorld (c7W 0) (Op.appleUpd [(11, 3)] [])
      Reachable.init (by decide)
  | succ k ih =>
    exact Reachable.step (c7W k) (c7W (k + 1)) Op.snakeUpd (ih (by omega))
      (hstep k (by omega))

/-- C7 counterexample: a reachable world in which the snake has eaten one
apple — the body has grown from 8 to 9 segments — yet `score` is 0, not 1:
the score does not count the food eaten. -/
theorem score_not_food_count_cex :
    Reachable c7Post ∧ c7Post.snake.score = 0 ∧ c7Post.snake.body.length = 9 := by
  refine ⟨?_, by decide, by decide⟩
  exact Reachable.step (c7W 24) c7Post Op.snakeUpd (c7_chain 24 (by omega)) (by decide)

/-! ## Claim C8: food placement -/

/-- A cell drawn from the `gen_range` intervals of `Apple::gen_pos` is
strictly interior (side conditions rule out u32 overflow in the bound sums,
as for the fixed level (0, 0, 30, 20)). -/
theorem is_inside_of_range {b : LevelBounds} {x y : Nat}
    (hxw : 1 ≤ b.x + b.width) (hxw2 : b.x + b.width ≤ u32Mod)
    (hyh : 1 ≤ b.y + b.height) (hyh2 : b.y + b.height ≤ u32Mod)
    (hx1 : b.x + 1 ≤ x) (hx2 : x < b.x + b.width - 1)
    (hy1 : b.y + 1 ≤ y) (hy2 : y < b.y + b.height - 1) :
    b.is_inside x y = true := by
  unfold LevelBounds.is_inside
  have h432 : u32Mod = 4294967296 := by unfold u32Mod; norm_num
  have hmx : (b.x + b.width + (u32Mod - 1)) % u32Mod = b.x + b.width - 1 := by
    rw [h432] at hxw2 ⊢
    omega
  have hmy : (b.y + b.height + (u32Mod - 1)) % u32Mod = b.y + b.height - 1 := by
    rw [h432] at hyh2 ⊢
    omega
  rw [hmx, hmy]
  simp only [Bool.and_eq_true, decide_eq_true_eq]
  omega

/-- C8: whatever position `Apple::gen_pos` returns — for any stream of
random samples, each drawn from the `gen_range` intervals over the strict
interior — is strictly inside the level bounds and coincides with no current
snake body segment, the head included. -/
theorem gen_pos_interior_and_free (s : Snake) (b : LevelBounds)
    (cands : List (Nat × Nat)) (x y : Nat)
    (hxw : 1 ≤ b.x + b.width) (hxw2 : b.x + b.width ≤ u32Mod)
    (hyh : 1 ≤ b.y + b.height) (hyh2 : b.y + b.height ≤ u32Mod)
    (hr : ∀ c ∈ cands, b.x + 1 ≤ c.1 ∧ c.1 < b.x + b.width - 1 ∧
      b.y + 1 ≤ c.2 ∧ c.2 < b.y + b.height - 1)
    (hres : Apple.gen_pos s cands = some (x, y)) :
    b.is_inside x y = true ∧ s.is_collision x y = none ∧
    ∀ p ∈ s.body, p ≠ (x, y) := by
  induction cands with
  | nil => simp [Apple.gen_pos] at hres
  | cons c rest ih =>
    obtain ⟨cx, cy⟩ := c
    simp only [Apple.gen_pos] at hres
    by_cases hcol : s.is_collision cx cy = none
    · rw [if_pos hcol] at hres
      injection hres with hres
      obtain ⟨hxx, hyy⟩ := Prod.mk.injEq .. ▸ hres
      subst hxx
      subst hyy
      have hc := hr (cx, cy) (List.mem_cons_self _ _)
      refine ⟨is_inside_of_range hxw hxw2 hyh hyh2 hc.1 hc.2.1 hc.2.2.1 hc.2.2.2,
        hcol, ?_⟩
      intro p hp hpe
      exact (is_collision_eq_none_iff s cx cy).mp hcol (hpe ▸ hp)
    · rw [if_neg hcol] at hres
      exact ih (fun c hc => hr c (List.mem_cons_of_mem _ hc)) hres

theorem gen_pos_interior_and_free_witness :
    (LevelBounds.new 0 0 30 20).is_inside 1 1 = true ∧
    Snake.new.is_collision 1 1 = none ∧
    ∀ p ∈ Snake.new.body, p ≠ (1, 1) :=
  gen_pos_interior_and_free Snake.new (LevelBounds.new 0 0 30 20) [(1, 1)] 1 1
    (by norm_num [LevelBounds.new]) (by unfold u32Mod LevelBounds.new; norm_num)
    (by norm_num [LevelBounds.new]) (by unfold u32Mod LevelBounds.new; norm_num)
    (by decide) (by decide)
